import Mathlib

/-!
Shallow embedding of the patient-flow dashboard core
(`src/app/kanban/page.tsx`: `getPatientStage`, `patientsByStage`,
`getTimeInStage`, and the timeline utilities `generatePatientTimeline`,
`calculatePatientTimeStats`, `calculateDuration`).

Timestamps are modelled as `Int` epoch milliseconds (the JS code converts
ISO strings through `new Date(x).getTime()` before every arithmetic use);
optional timestamps become `Option Int`. `Math.floor(x / 60000)` on a
millisecond delta becomes `Int.fdiv _ 60000` (floor division, which may be
negative and is never clamped). JS array `sort` with a numeric comparator
is stable (ES2019), so it is modelled by `List.insertionSort`, which is
stable for a reflexive total order.
-/

/-- Study status enum: `"Solicitado" | "Pendiente Resultado" | "Completado"`. -/
inductive StudyStatus
  | Solicitado
  | PendienteResultado
  | Completado
deriving DecidableEq, Repr

/-- Patient status enum: `"active" | "discharged"`. -/
inductive PatientStatus
  | active
  | discharged
deriving DecidableEq, Repr

/-- `Study` record (fields used by the core logic; the union of the
`Study` interface in `page.tsx` and the timeline module's `Study` type,
which additionally has `inProgressAt` and `reviewedAt`). -/
structure Study where
  id : String
  name : String
  type : String
  status : StudyStatus
  hasAlert : Bool
  requestedAt : Int
  inProgressAt : Option Int
  completedAt : Option Int
  reviewedAt : Option Int
deriving DecidableEq, Repr

/-- `Patient` record (fields used by the core logic; the timeline module's
`Patient` type additionally has `dischargedAt`). -/
structure Patient where
  id : String
  name : String
  diagnosis : String
  status : PatientStatus
  admissionTime : Int
  assignedToDoctorAt : Option Int
  firstStudyRequestedAt : Option Int
  allStudiesCompletedAt : Option Int
  dischargedAt : Option Int
  studies : List Study
deriving DecidableEq, Repr

/-- The six kanban stages. -/
inductive KanbanStage
  | admission
  | waiting_doctor
  | in_studies
  | results_ready
  | in_progress
  | discharge
deriving DecidableEq, Repr

/-- `getPatientStage` from `page.tsx` (lines 101-137): ordered decision
sequence, first match wins, with a defensive `waiting_doctor` fallback. -/
def getPatientStage (patient : Patient) : KanbanStage :=
  if patient.status = .discharged then
    .discharge
  else
    let hasStudies := decide (0 < patient.studies.length)
    let allStudiesCompleted :=
      hasStudies && patient.studies.all fun s => decide (s.status = .Completado)
    let hasStudiesInProgress :=
      hasStudies && patient.studies.any fun s => decide (s.status = .PendienteResultado)
    let hasStudiesPending :=
      hasStudies && patient.studies.any fun s => decide (s.status = .Solicitado)
    if patient.assignedToDoctorAt.isNone then
      .admission
    else if !hasStudies then
      .waiting_doctor
    else if hasStudiesPending || hasStudiesInProgress then
      .in_studies
    else if allStudiesCompleted && patient.allStudiesCompletedAt.isNone then
      .results_ready
    else if allStudiesCompleted && patient.allStudiesCompletedAt.isSome then
      .in_progress
    else
      .waiting_doctor

/-- The stage classifier exactly as the specification's decision table
words it (ordered first-match over the six conditions, then the fallback);
to be compared with `getPatientStage`. -/
def classifyStageClaim (patient : Patient) : KanbanStage :=
  if patient.status = .discharged then .discharge
  else if patient.assignedToDoctorAt = none then .admission
  else if patient.studies = [] then .waiting_doctor
  else if patient.studies.any
      (fun s => decide (s.status = .Solicitado ∨ s.status = .PendienteResultado)) then
    .in_studies
  else if (∀ s ∈ patient.studies, s.status = .Completado) ∧
      patient.allStudiesCompletedAt = none then
    .results_ready
  else if (∀ s ∈ patient.studies, s.status = .Completado) ∧
      patient.allStudiesCompletedAt ≠ none then
    .in_progress
  else .waiting_doctor

/-- `patientsByStage` from `page.tsx` (lines 140-156): starts from six empty
buckets and pushes each patient, in input order, onto the bucket of its
stage. The record of six lists is modelled as a total function
`KanbanStage → List Patient`. -/
def pushToStage (grouped : KanbanStage → List Patient) (patient : Patient) :
    KanbanStage → List Patient :=
  fun st => if getPatientStage patient = st then grouped st ++ [patient] else grouped st

/-- The grouped buckets after folding over the patient list. -/
def patientsByStage (patients : List Patient) : KanbanStage → List Patient :=
  patients.foldl pushToStage (fun _ => [])

/-- The six stage keys, in the order the board lists them. -/
def allStages : List KanbanStage :=
  [.admission, .waiting_doctor, .in_studies, .results_ready, .in_progress, .discharge]

/-- `Math.max(...studies.map s => new Date(s.completedAt || 0).getTime())`:
maximum of `completedAt` with a missing value contributing epoch `0`.
In source this is only ever evaluated at stage `results_ready`, which
forces a non-empty study list; the `[]` arm is unreachable there (JS would
give `-Infinity`). -/
def maxCompleted (studies : List Study) : Int :=
  match studies.map (fun s => s.completedAt.getD 0) with
  | [] => 0
  | x :: xs => xs.foldl max x

/-- `getTimeInStage` from `page.tsx` (lines 159-186), with the evaluation
instant `now` (source: `Date.now()`) passed explicitly. -/
def getTimeInStage (now : Int) (patient : Patient) : Int :=
  match getPatientStage patient with
  | .admission => (now - patient.admissionTime).fdiv 60000
  | .waiting_doctor =>
      (now - (patient.assignedToDoctorAt.getD patient.admissionTime)).fdiv 60000
  | .in_studies =>
      (now - (patient.firstStudyRequestedAt.getD patient.admissionTime)).fdiv 60000
  | .results_ready => (now - maxCompleted patient.studies).fdiv 60000
  | .in_progress =>
      (now - (patient.allStudiesCompletedAt.getD patient.admissionTime)).fdiv 60000
  | .discharge => 0

/-- The eight timeline event kinds. -/
inductive EventType
  | admission
  | doctor_assigned
  | study_requested
  | study_in_progress
  | study_completed
  | study_reviewed
  | all_completed
  | discharge
deriving DecidableEq, Repr

/-- `TimelineEvent` (derived, not persisted). -/
structure TimelineEvent where
  id : String
  timestamp : Int
  type : EventType
  title : String
  description : String
  duration : Int
deriving DecidableEq, Repr

/-- `calculateDuration(from, to)` (timeline module, lines 666-670):
`Math.floor((to - from) / 60000)` on millisecond timestamps.
May be negative; no clamping. -/
def calculateDuration (fromTs toTs : Int) : Int :=
  (toTs - fromTs).fdiv 60000

/-- The admission event (always emitted first, duration 0). -/
def admissionEvent (patient : Patient) : TimelineEvent :=
  { id := patient.id ++ "-admission"
    timestamp := patient.admissionTime
    type := .admission
    title := "Ingreso a Emergencias"
    description := "Paciente ingresado con diagnóstico: " ++ patient.diagnosis
    duration := 0 }

/-- Event payload of the doctor-assignment checkpoint. -/
def doctorAssignedMk (patient : Patient) (prev t : Int) : TimelineEvent :=
  { id := patient.id ++ "-doctor-assigned"
    timestamp := t
    type := .doctor_assigned
    title := "Asignado a Médico"
    description := "Paciente asignado a médico tratante"
    duration := calculateDuration prev t }

/-- Event payload of the first-study-requested checkpoint (the description
reports the total study count). -/
def firstStudyMk (patient : Patient) (studies : List Study) (prev t : Int) : TimelineEvent :=
  { id := patient.id ++ "-first-study"
    timestamp := t
    type := .study_requested
    title := "Estudios Solicitados"
    description := toString studies.length ++ " estudio(s) solicitado(s)"
    duration := calculateDuration prev t }

/-- Event payload of a study entering progress. -/
def studyInProgressMk (study : Study) (prev t : Int) : TimelineEvent :=
  { id := study.id ++ "-in-progress"
    timestamp := t
    type := .study_in_progress
    title := study.name ++ " - En Proceso"
    description := "Estudio " ++ study.type ++ " en proceso"
    duration := calculateDuration prev t }

/-- Event payload of a study completion (flags an abnormal result). -/
def studyCompletedMk (study : Study) (prev t : Int) : TimelineEvent :=
  { id := study.id ++ "-completed"
    timestamp := t
    type := .study_completed
    title := study.name ++ " - Completado"
    description :=
      if study.hasAlert then "⚠️ Resultado anormal detectado" else "Resultado disponible"
    duration := calculateDuration prev t }

/-- Event payload of a study review. -/
def studyReviewedMk (study : Study) (prev t : Int) : TimelineEvent :=
  { id := study.id ++ "-reviewed"
    timestamp := t
    type := .study_reviewed
    title := study.name ++ " - Revisado"
    description := "Resultado revisado por médico"
    duration := calculateDuration prev t }

/-- Event payload of the all-studies-completed checkpoint. -/
def allCompletedMk (patient : Patient) (prev t : Int) : TimelineEvent :=
  { id := patient.id ++ "-all-completed"
    timestamp := t
    type := .all_completed
    title := "Todos los Estudios Completados"
    description := "Paciente listo para evaluación final"
    duration := calculateDuration prev t }

/-- Event payload of the discharge checkpoint. -/
def dischargeMk (patient : Patient) (prev t : Int) : TimelineEvent :=
  { id := patient.id ++ "-discharge"
    timestamp := t
    type := .discharge
    title := "Alta Médica"
    description := "Paciente dado de alta"
    duration := calculateDuration prev t }

/-- One optional checkpoint of the emission template: if the timestamp is
present, emit one event built from the running cursor `prev` and advance
the cursor to the event's timestamp; otherwise emit nothing and keep the
cursor (the `if (x) { events.push(...); previousTimestamp = x }` blocks of
`generatePatientTimeline`). -/
def optStep (mk : Int → Int → TimelineEvent) (o : Option Int) (prev : Int) :
    List TimelineEvent × Int :=
  match o with
  | some t => ([mk prev t], t)
  | none => ([], prev)

/-- Ordering of studies by `requestedAt` used by the emission loop
(`[...studies].sort((a, b) => requestedAt delta)`). -/
def reqLE (a b : Study) : Prop := a.requestedAt ≤ b.requestedAt

instance : DecidableRel reqLE := fun a b => Int.decLe a.requestedAt b.requestedAt

instance : IsTotal Study reqLE := ⟨fun a b => Int.le_total a.requestedAt b.requestedAt⟩

instance : IsTrans Study reqLE := ⟨fun _ _ _ => Int.le_trans⟩

/-- The three per-study sub-events (in-progress, completed, reviewed),
threaded through the same global cursor. -/
def studySubEvents (study : Study) (prev : Int) : List TimelineEvent × Int :=
  let s1 := optStep (studyInProgressMk study) study.inProgressAt prev
  let s2 := optStep (studyCompletedMk study) study.completedAt s1.2
  let s3 := optStep (studyReviewedMk study) study.reviewedAt s2.2
  (s1.1 ++ s2.1 ++ s3.1, s3.2)

/-- The `sortedStudies.forEach` loop: per-study sub-events, studies in
order, one shared running cursor. -/
def studiesEvents (prev : Int) : List Study → List TimelineEvent × Int
  | [] => ([], prev)
  | s :: rest =>
      let h := studySubEvents s prev
      let t := studiesEvents h.2 rest
      (h.1 ++ t.1, t.2)

/-- The event list in emission (template) order, before the final sort:
steps 1-6 of `generatePatientTimeline` (timeline module, lines 481-599).
The discharge step does not advance the cursor in the source (it is last),
so only its event list is used. -/
def emittedEvents (patient : Patient) (studies : List Study) : List TimelineEvent :=
  let s1 := optStep (doctorAssignedMk patient) patient.assignedToDoctorAt patient.admissionTime
  let s2 := optStep (firstStudyMk patient studies) patient.firstStudyRequestedAt s1.2
  let s3 := studiesEvents s2.2 (List.insertionSort reqLE studies)
  let s4 := optStep (allCompletedMk patient) patient.allStudiesCompletedAt s3.2
  let s5 := optStep (dischargeMk patient) patient.dischargedAt s4.2
  admissionEvent patient :: (s1.1 ++ s2.1 ++ s3.1 ++ s4.1 ++ s5.1)

/-- Ordering of timeline events by timestamp used by the final sort
(`events.sort((a, b) => timestamp delta)`, lines 601-602). -/
def tsLE (a b : TimelineEvent) : Prop := a.timestamp ≤ b.timestamp

instance : DecidableRel tsLE := fun a b => Int.decLe a.timestamp b.timestamp

instance : IsTotal TimelineEvent tsLE := ⟨fun a b => Int.le_total a.timestamp b.timestamp⟩

instance : IsTrans TimelineEvent tsLE := ⟨fun _ _ _ => Int.le_trans⟩

/-- `generatePatientTimeline(patient, studies)`: emit in template order
with the running cursor, then re-sort the whole list by timestamp
ascending (stable). -/
def generatePatientTimeline (patient : Patient) (studies : List Study) :
    List TimelineEvent :=
  List.insertionSort tsLE (emittedEvents patient studies)

/-- `PatientTimeStats` (derived): all fields in whole minutes. -/
structure PatientTimeStats where
  totalTime : Int
  waitingForStudies : Int
  waitingForReview : Int
  studiesInProgress : Int
  averageStudyTime : Int
deriving DecidableEq, Repr

/-- `calculatePatientTimeStats(patient, studies)` (timeline module, lines
608-661), with the evaluation instant `now` (source: `new Date()`) passed
explicitly. Each `forEach` accumulation becomes a `foldl`. -/
def calculatePatientTimeStats (patient : Patient) (studies : List Study) (now : Int) :
    PatientTimeStats :=
  let admissionTime := patient.admissionTime
  let dischargeTime := patient.dischargedAt.getD now
  let totalTime := (dischargeTime - admissionTime).fdiv 60000
  let waitingForStudies := studies.foldl
    (fun acc study => acc + ((study.completedAt.getD now) - study.requestedAt).fdiv 60000) 0
  let waitingForReview := studies.foldl
    (fun acc study =>
      match study.completedAt, study.reviewedAt with
      | some completedAt, none => acc + (now - completedAt).fdiv 60000
      | some completedAt, some reviewedAt => acc + (reviewedAt - completedAt).fdiv 60000
      | none, _ => acc) 0
  let studiesInProgress := studies.foldl
    (fun acc study =>
      match study.inProgressAt, study.completedAt with
      | some inProgressAt, some completedAt => acc + (completedAt - inProgressAt).fdiv 60000
      | _, _ => acc) 0
  let completedStudies := (studies.filter fun s => s.completedAt.isSome).length
  let averageStudyTime :=
    if 0 < completedStudies then waitingForStudies.fdiv completedStudies else 0
  { totalTime := totalTime
    waitingForStudies := waitingForStudies
    waitingForReview := waitingForReview
    studiesInProgress := studiesInProgress
    averageStudyTime := averageStudyTime }

/-- Projection of an event to its kind and timestamp, used to state the
emission-template shape independently of titles and descriptions. -/
def evProj (e : TimelineEvent) : EventType × Int := (e.type, e.timestamp)

/-- The kind/timestamp contribution of one optional checkpoint: one entry
when present, nothing when absent. -/
def optEvent (ty : EventType) (o : Option Int) : List (EventType × Int) :=
  match o with
  | some t => [(ty, t)]
  | none => []

/-- Relation between consecutive emitted events: the later event's duration
was computed from the earlier event's timestamp by the running cursor. -/
def durStep (e e' : TimelineEvent) : Prop :=
  e'.duration = calculateDuration e.timestamp e'.timestamp

/-- Value of the running cursor after a block of emitted events: the last
event's timestamp, or the incoming cursor if the block is empty. -/
def lastTs (prev : Int) (l : List TimelineEvent) : Int :=
  match l.getLast? with
  | some e => e.timestamp
  | none => prev

/-- A block of events respects the running cursor arriving with value
`prev`: consecutive durations follow `durStep`, and the first event's
duration was computed from `prev`. -/
def chainFrom (prev : Int) (l : List TimelineEvent) : Prop :=
  List.Chain' durStep l ∧ ∀ e ∈ l.head?, e.duration = calculateDuration prev e.timestamp

/-- Every timestamp that can become a timeline event timestamp other than
the admission time itself. -/
def eventTimes (patient : Patient) (studies : List Study) : List Int :=
  ([patient.assignedToDoctorAt, patient.firstStudyRequestedAt,
    patient.allStudiesCompletedAt, patient.dischargedAt] ++
   studies.flatMap fun s => [s.inProgressAt, s.completedAt, s.reviewedAt]).reduceOption

/-- The present timestamps of a list of optional lifecycle slots, in
lifecycle order, form a non-decreasing chain (pairwise, so absent slots
are simply skipped). -/
def presentMono (l : List (Option Int)) : Prop :=
  l.reduceOption.Pairwise (· ≤ ·)

/-- The patient-level lifecycle slots in order:
admission ≤ doctor assignment ≤ first study request ≤ all-studies-completed
≤ discharge, over the timestamps that are present. -/
def patientLifecycle (patient : Patient) : List (Option Int) :=
  [some patient.admissionTime, patient.assignedToDoctorAt, patient.firstStudyRequestedAt,
   patient.allStudiesCompletedAt, patient.dischargedAt]

/-- The lifecycle slots running through one study:
admission ≤ doctor assignment ≤ first study request ≤ requestedAt ≤
inProgressAt ≤ completedAt ≤ reviewedAt ≤ all-studies-completed ≤
discharge, over the timestamps that are present. -/
def studyLifecycle (patient : Patient) (s : Study) : List (Option Int) :=
  [some patient.admissionTime, patient.assignedToDoctorAt, patient.firstStudyRequestedAt,
   some s.requestedAt, s.inProgressAt, s.completedAt, s.reviewedAt,
   patient.allStudiesCompletedAt, patient.dischargedAt]

/-- All present timestamps of a patient and its studies are monotonic along
the lifecycle. -/
def MonotonicLifecycle (patient : Patient) (studies : List Study) : Prop :=
  presentMono (patientLifecycle patient) ∧
  ∀ s ∈ studies, presentMono (studyLifecycle patient s)

instance (l : List (Option Int)) : Decidable (presentMono l) :=
  inferInstanceAs (Decidable (l.reduceOption.Pairwise (· ≤ ·)))

instance (patient : Patient) (studies : List Study) :
    Decidable (MonotonicLifecycle patient studies) :=
  inferInstanceAs (Decidable (presentMono (patientLifecycle patient) ∧
    ∀ s ∈ studies, presentMono (studyLifecycle patient s)))

/-- Every present timestamp of the patient and its studies, flattened. -/
def allLifecycleTimes (patient : Patient) (studies : List Study) : List Int :=
  (patientLifecycle patient ++
   studies.flatMap fun s => [some s.requestedAt, s.inProgressAt, s.completedAt, s.reviewedAt]
  ).reduceOption

/-- Epoch-millisecond timestamps of the concrete scenario of §8:
2024-01-01T10:00:00Z and the later instants of the same morning. -/
def t1000 : Int := 1704103200000

/-- 2024-01-01T10:10:00Z. -/
def t1010 : Int := 1704103800000

/-- 2024-01-01T10:20:00Z. -/
def t1020 : Int := 1704104400000

/-- 2024-01-01T10:25:00Z. -/
def t1025 : Int := 1704104700000

/-- 2024-01-01T10:40:00Z. -/
def t1040 : Int := 1704105600000

/-- 2024-01-01T10:45:00Z. -/
def t1045 : Int := 1704105900000

/-- 2024-01-01T11:00:00Z. -/
def t1100 : Int := 1704106800000

/-- The single study of the §8 scenario: requested 10:20, in progress
10:25, completed 10:40 with an abnormal result, reviewed 10:45. -/
def scenarioStudy : Study :=
  { id := "study-1"
    name := "Laboratorio Completo"
    type := "Laboratorio"
    status := .Completado
    hasAlert := true
    requestedAt := t1020
    inProgressAt := some t1025
    completedAt := some t1040
    reviewedAt := some t1045 }

/-- The §8 scenario patient: admitted 10:00, doctor assigned 10:10, one
study, all studies completed 10:40, not discharged. -/
def scenarioPatient : Patient :=
  { id := "patient-1"
    name := "Paciente Uno"
    diagnosis := "Dolor torácico"
    status := .active
    admissionTime := t1000
    assignedToDoctorAt := some t1010
    firstStudyRequestedAt := some t1020
    allStudiesCompletedAt := some t1040
    dischargedAt := none
    studies := [scenarioStudy] }

/-- A patient whose doctor-assignment timestamp precedes the admission
timestamp (out-of-order input): admitted at epoch minute 1, assigned at
epoch 0. -/
def earlyDoctorPatient : Patient :=
  { id := "patient-2"
    name := "Paciente Dos"
    diagnosis := "Cefalea"
    status := .active
    admissionTime := 60000
    assignedToDoctorAt := some 0
    firstStudyRequestedAt := none
    allStudiesCompletedAt := none
    dischargedAt := none
    studies := [] }

/-- A minimal well-formed patient: admitted at epoch 0, nothing else. -/
def freshPatient : Patient :=
  { id := "patient-3"
    name := "Paciente Tres"
    diagnosis := "Fiebre"
    status := .active
    admissionTime := 0
    assignedToDoctorAt := none
    firstStudyRequestedAt := none
    allStudiesCompletedAt := none
    dischargedAt := none
    studies := [] }

/-- A study whose four timestamps are cleanly ordered (minutes 20, 25,
40, 45 after epoch). -/
def monotonicStudy : Study :=
  { id := "study-2"
    name := "Radiografía"
    type := "Imagen"
    status := .Completado
    hasAlert := false
    requestedAt := 1200000
    inProgressAt := some 1500000
    completedAt := some 2400000
    reviewedAt := some 2700000 }

/-- A patient whose whole lifecycle is cleanly ordered (admitted at epoch
0, discharged at minute 60) with one monotonic study. -/
def monotonicPatient : Patient :=
  { id := "patient-4"
    name := "Paciente Cuatro"
    diagnosis := "Trauma leve"
    status := .discharged
    admissionTime := 0
    assignedToDoctorAt := some 600000
    firstStudyRequestedAt := some 1200000
    allStudiesCompletedAt := some 3000000
    dischargedAt := some 3600000
    studies := [monotonicStudy] }

/-- The §8 scenario patient discharged at 11:00. -/
def dischargedPatient : Patient :=
  { scenarioPatient with status := .discharged, dischargedAt := some t1100 }

/-- The §8 scenario patient before the all-studies-completed checkpoint is
recorded: classifies as `results_ready`. -/
def resultsReadyPatient : Patient :=
  { scenarioPatient with allStudiesCompletedAt := none }

/-- Per-study contribution to `waitingForStudies` as the spec words it:
`(completedAt or now) − requestedAt`, in floored minutes. -/
def studyWaitContribution (now : Int) (s : Study) : Int :=
  ((s.completedAt.getD now) - s.requestedAt).fdiv 60000

/-- `waitingForStudies` as the spec words it: an independent sum over the
study list. -/
def waitingForStudiesClaim (studies : List Study) (now : Int) : Int :=
  (studies.map (studyWaitContribution now)).sum

/-- Per-study contribution to `waitingForReview` as the spec words it:
studies with `completedAt` set contribute `reviewedAt − completedAt` when
reviewed, else `now − completedAt`; others contribute nothing. -/
def reviewContribution (now : Int) (s : Study) : Int :=
  match s.completedAt, s.reviewedAt with
  | some completedAt, none => (now - completedAt).fdiv 60000
  | some completedAt, some reviewedAt => (reviewedAt - completedAt).fdiv 60000
  | none, _ => 0

/-- `waitingForReview` as the spec words it: an independent sum over the
study list. -/
def waitingForReviewClaim (studies : List Study) (now : Int) : Int :=
  (studies.map (reviewContribution now)).sum

/-- Per-study contribution to `studiesInProgress` as the spec words it:
`completedAt − inProgressAt` when both are present, else 0. -/
def inProgressContribution (s : Study) : Int :=
  match s.inProgressAt, s.completedAt with
  | some inProgressAt, some completedAt => (completedAt - inProgressAt).fdiv 60000
  | _, _ => 0

/-- `studiesInProgress` as the spec words it: an independent sum over the
study list. -/
def studiesInProgressClaim (studies : List Study) : Int :=
  (studies.map inProgressContribution).sum

/-- The number of studies with `completedAt` set. -/
def completedCount (studies : List Study) : Nat :=
  (studies.filter fun s => s.completedAt.isSome).length

theorem studyStatus_trichotomy (s : Study) :
    s.status = .Solicitado ∨ s.status = .PendienteResultado ∨ s.status = .Completado := by
  cases s.status <;> simp

theorem getPatientStage_eq_classifyStageClaim (p : Patient) :
    getPatientStage p = classifyStageClaim p := by
  by_cases h1 : p.status = .discharged
  · simp [getPatientStage, classifyStageClaim, h1]
  by_cases h2 : p.assignedToDoctorAt = none
  · simp [getPatientStage, classifyStageClaim, h1, h2, Option.isNone_iff_eq_none]
  by_cases h3 : p.studies = []
  · simp [getPatientStage, classifyStageClaim, h1, h2, h3, Option.isNone_iff_eq_none]
  have hlen : (0 < p.studies.length) := List.length_pos.mpr h3
  by_cases h4 : ∃ s ∈ p.studies, s.status = .Solicitado ∨ s.status = .PendienteResultado
  · have h4' : p.studies.any
        (fun s => decide (s.status = .Solicitado ∨ s.status = .PendienteResultado)) = true := by
      simp [List.any_eq_true]; exact h4
    have h4'' : ((p.studies.any fun s => decide (s.status = .Solicitado)) ||
        (p.studies.any fun s => decide (s.status = .PendienteResultado))) = true := by
      rcases h4 with ⟨s, hs, h | h⟩
      · simp only [Bool.or_eq_true, List.any_eq_true]
        exact Or.inl ⟨s, hs, by simp [h]⟩
      · simp only [Bool.or_eq_true, List.any_eq_true]
        exact Or.inr ⟨s, hs, by simp [h]⟩
    simp only [getPatientStage, classifyStageClaim, h1, h2, h3, h4', hlen,
      Option.isNone_iff_eq_none, if_false, if_true, decide_True, Bool.true_and, Bool.not_true,
      if_neg, ite_false, ite_true]
    simp [h4'']
  · have hall : ∀ s ∈ p.studies, s.status = .Completado := by
      intro s hs
      rcases studyStatus_trichotomy s with h | h | h
      · exact absurd ⟨s, hs, Or.inl h⟩ h4
      · exact absurd ⟨s, hs, Or.inr h⟩ h4
      · exact h
    have hall' : (p.studies.all fun s => decide (s.status = .Completado)) = true := by
      simp [List.all_eq_true]; exact hall
    have h4' : p.studies.any
        (fun s => decide (s.status = .Solicitado ∨ s.status = .PendienteResultado)) = false := by
      simp only [List.any_eq_false]
      intro s hs
      simp only [decide_eq_true_eq] at *
      intro hcon
      exact h4 ⟨s, hs, hcon⟩
    have hpend : (p.studies.any fun s => decide (s.status = .Solicitado)) = false := by
      simp only [List.any_eq_false]
      intro s hs
      simp only [decide_eq_true_eq] at *
      intro hcon
      exact h4 ⟨s, hs, Or.inl hcon⟩
    have hinpr : (p.studies.any fun s => decide (s.status = .PendienteResultado)) = false := by
      simp only [List.any_eq_false]
      intro s hs
      simp only [decide_eq_true_eq] at *
      intro hcon
      exact h4 ⟨s, hs, Or.inr hcon⟩
    by_cases h5 : p.allStudiesCompletedAt = none
    · simp [getPatientStage, classifyStageClaim, h1, h2, h3, h4', h5, hall, hall', hpend, hinpr,
        hlen, Option.isNone_iff_eq_none]
      rw [if_neg h4, if_pos hall]
    · simp [getPatientStage, classifyStageClaim, h1, h2, h3, h4', h5, hall, hall', hpend, hinpr,
        hlen, Option.isNone_iff_eq_none, Option.isSome_iff_ne_none]
      rw [if_neg h4, if_pos hall]

theorem getPatientStage_mem_allStages (p : Patient) : getPatientStage p ∈ allStages := by
  cases h : getPatientStage p <;> simp [allStages]

/-- C1: `classifyStage` (`getPatientStage`) is the ordered first-match
decision the spec's table describes, is total (returns exactly one of the
six stages for any patient), and `status == discharged` always yields
`discharge` regardless of every other field. -/
theorem claim_C1_stage_classifier (p : Patient) :
    getPatientStage p = classifyStageClaim p ∧
    getPatientStage p ∈ allStages ∧
    (p.status = .discharged → getPatientStage p = .discharge) := by
  refine ⟨getPatientStage_eq_classifyStageClaim p, getPatientStage_mem_allStages p, ?_⟩
  intro h
  simp [getPatientStage, h]

theorem claim_C1_stage_classifier_witness :
    getPatientStage dischargedPatient = classifyStageClaim dischargedPatient ∧
    getPatientStage dischargedPatient ∈ allStages ∧
    getPatientStage dischargedPatient = .discharge := by
  obtain ⟨h1, h2, h3⟩ := claim_C1_stage_classifier dischargedPatient
  exact ⟨h1, h2, h3 (by decide)⟩

/-- C10: for patients whose study statuses are within the three-valued
enum, the defensive fallback arm of `getPatientStage` is unreachable: a
non-discharged, doctor-assigned patient with a non-empty study list and no
study in `Solicitado` or `PendienteResultado` has all studies `Completado`
and lands in `results_ready` or `in_progress`. -/
theorem claim_C10_fallback_unreachable (p : Patient)
    (h1 : p.status ≠ .discharged)
    (h2 : p.assignedToDoctorAt.isSome)
    (h3 : p.studies ≠ [])
    (h4 : ∀ s ∈ p.studies, s.status ≠ .Solicitado ∧ s.status ≠ .PendienteResultado) :
    (∀ s ∈ p.studies, s.status = .Completado) ∧
    (getPatientStage p = .results_ready ∨ getPatientStage p = .in_progress) := by
  have hall : ∀ s ∈ p.studies, s.status = .Completado := by
    intro s hs
    rcases studyStatus_trichotomy s with h | h | h
    · exact absurd h (h4 s hs).1
    · exact absurd h (h4 s hs).2
    · exact h
  refine ⟨hall, ?_⟩
  rw [getPatientStage_eq_classifyStageClaim]
  have h2' : p.assignedToDoctorAt ≠ none := by
    rw [Option.isSome_iff_ne_none] at h2; exact h2
  have hany : ¬ ∃ s ∈ p.studies, s.status = .Solicitado ∨ s.status = .PendienteResultado := by
    rintro ⟨s, hs, h | h⟩
    · exact (h4 s hs).1 h
    · exact (h4 s hs).2 h
  have hany' : p.studies.any
      (fun s => decide (s.status = .Solicitado ∨ s.status = .PendienteResultado)) = false := by
    simp only [List.any_eq_false]
    intro s hs
    simp only [decide_eq_true_eq]
    intro hcon
    exact hany ⟨s, hs, hcon⟩
  by_cases h5 : p.allStudiesCompletedAt = none
  · left
    simp [classifyStageClaim, h1, h2', h3, hany', h5, hall]
    rw [if_neg hany, if_pos hall]
  · right
    simp [classifyStageClaim, h1, h2', h3, hany', h5, hall]
    rw [if_neg hany, if_pos hall]

theorem claim_C10_fallback_unreachable_witness :
    (∀ s ∈ scenarioPatient.studies, s.status = .Completado) ∧
    (getPatientStage scenarioPatient = .results_ready ∨
      getPatientStage scenarioPatient = .in_progress) :=
  claim_C10_fallback_unreachable scenarioPatient (by decide) (by decide) (by decide) (by decide)

theorem foldl_max_ge_init (xs : List Int) (x : Int) : x ≤ xs.foldl max x := by
  induction xs generalizing x with
  | nil => exact le_refl x
  | cons y ys ih =>
      calc x ≤ max x y := le_max_left x y
        _ ≤ (y :: ys).foldl max x := by simpa using ih (max x y)

theorem foldl_max_ge_mem (xs : List Int) (x : Int) :
    ∀ y ∈ xs, y ≤ xs.foldl max x := by
  induction xs generalizing x with
  | nil => intro y hy; cases hy
  | cons z zs ih =>
      intro y hy
      rcases List.mem_cons.mp hy with h | h
      · subst h
        calc y ≤ max x y := le_max_right x y
          _ ≤ (y :: zs).foldl max x := by simpa using foldl_max_ge_init zs (max x y)
      · simpa using ih (max x z) y h

theorem foldl_max_cases (xs : List Int) (x : Int) :
    xs.foldl max x = x ∨ xs.foldl max x ∈ xs := by
  induction xs generalizing x with
  | nil => exact Or.inl rfl
  | cons y ys ih =>
      have h : (y :: ys).foldl max x = ys.foldl max (max x y) := by simp
      rcases ih (max x y) with h1 | h1
      · rcases max_choice x y with h2 | h2
        · exact Or.inl (by rw [h, h1, h2])
        · exact Or.inr (by rw [h, h1, h2]; exact List.mem_cons_self y ys)
      · exact Or.inr (by rw [h]; exact List.mem_cons_of_mem y h1)

theorem le_maxCompleted (studies : List Study) (s : Study) (hs : s ∈ studies) :
    s.completedAt.getD 0 ≤ maxCompleted studies := by
  match studies, hs with
  | s0 :: rest, hs =>
      rcases List.mem_cons.mp hs with h | h
      · subst h
        simpa [maxCompleted] using foldl_max_ge_init (rest.map fun s => s.completedAt.getD 0) _
      · exact foldl_max_ge_mem _ _ _ (List.mem_map_of_mem (fun s => s.completedAt.getD 0) h)

theorem maxCompleted_mem (studies : List Study) (hne : studies ≠ []) :
    ∃ s ∈ studies, maxCompleted studies = s.completedAt.getD 0 := by
  match studies, hne with
  | s0 :: rest, _ =>
      rcases foldl_max_cases (rest.map fun s => s.completedAt.getD 0) (s0.completedAt.getD 0)
        with h | h
      · exact ⟨s0, List.mem_cons_self s0 rest, by simpa [maxCompleted] using h⟩
      · rcases List.mem_map.mp h with ⟨s, hs, hval⟩
        exact ⟨s, List.mem_cons_of_mem s0 hs, by simpa [maxCompleted] using hval.symm⟩

theorem results_ready_nonempty (p : Patient)
    (h : getPatientStage p = .results_ready) : p.studies ≠ [] := by
  intro hnil
  rw [getPatientStage_eq_classifyStageClaim] at h
  simp [classifyStageClaim, hnil] at h
  split_ifs at h

/-- C6: `getTimeInStage` returns, in floor-truncated whole minutes:
`now − admissionTime` in `admission`; `now − (assignedToDoctorAt or
admissionTime)` in `waiting_doctor`; `now − (firstStudyRequestedAt or
admissionTime)` in `in_studies`; `now −` the maximum over all studies of
`completedAt` (a study with no `completedAt` contributes epoch 0) in
`results_ready`; `now − (allStudiesCompletedAt or admissionTime)` in
`in_progress`; and 0 in `discharge`. -/
theorem claim_C6_time_in_stage (now : Int) (p : Patient) :
    (getPatientStage p = .admission →
      getTimeInStage now p = (now - p.admissionTime).fdiv 60000) ∧
    (getPatientStage p = .waiting_doctor →
      getTimeInStage now p =
        (now - (p.assignedToDoctorAt.getD p.admissionTime)).fdiv 60000) ∧
    (getPatientStage p = .in_studies →
      getTimeInStage now p =
        (now - (p.firstStudyRequestedAt.getD p.admissionTime)).fdiv 60000) ∧
    (getPatientStage p = .results_ready →
      getTimeInStage now p = (now - maxCompleted p.studies).fdiv 60000 ∧
      (∀ s ∈ p.studies, s.completedAt.getD 0 ≤ maxCompleted p.studies) ∧
      (∃ s ∈ p.studies, maxCompleted p.studies = s.completedAt.getD 0)) ∧
    (getPatientStage p = .in_progress →
      getTimeInStage now p =
        (now - (p.allStudiesCompletedAt.getD p.admissionTime)).fdiv 60000) ∧
    (getPatientStage p = .discharge → getTimeInStage now p = 0) := by
  refine ⟨?_, ?_, ?_, ?_, ?_, ?_⟩ <;> intro h
  · simp [getTimeInStage, h]
  · simp [getTimeInStage, h]
  · simp [getTimeInStage, h]
  · refine ⟨by simp [getTimeInStage, h], fun s hs => le_maxCompleted p.studies s hs, ?_⟩
    exact maxCompleted_mem p.studies (results_ready_nonempty p h)
  · simp [getTimeInStage, h]
  · simp [getTimeInStage, h]

theorem claim_C6_time_in_stage_witness :
    getTimeInStage t1100 resultsReadyPatient =
      (t1100 - maxCompleted resultsReadyPatient.studies).fdiv 60000 ∧
    (∀ s ∈ resultsReadyPatient.studies,
      s.completedAt.getD 0 ≤ maxCompleted resultsReadyPatient.studies) ∧
    (∃ s ∈ resultsReadyPatient.studies,
      maxCompleted resultsReadyPatient.studies = s.completedAt.getD 0) :=
  (claim_C6_time_in_stage t1100 resultsReadyPatient).2.2.2.1 (by decide)

theorem foldl_pushToStage (ps : List Patient) :
    ∀ (acc : KanbanStage → List Patient) (st : KanbanStage),
      ps.foldl pushToStage acc st =
        acc st ++ ps.filter (fun p => decide (getPatientStage p = st)) := by
  induction ps with
  | nil => intro acc st; simp
  | cons q rest ih =>
      intro acc st
      have step : List.foldl pushToStage acc (q :: rest) =
          List.foldl pushToStage (pushToStage acc q) rest := rfl
      rw [step, ih (pushToStage acc q) st]
      by_cases h : getPatientStage q = st
      · simp [pushToStage, h]
      · simp [pushToStage, h]

theorem patientsByStage_eq_filter (ps : List Patient) (st : KanbanStage) :
    patientsByStage ps st = ps.filter (fun p => decide (getPatientStage p = st)) := by
  have := foldl_pushToStage ps (fun _ => []) st
  simpa [patientsByStage] using this

theorem flatMap_congr_mem {α β : Type} {l : List α} {f g : α → List β}
    (h : ∀ a ∈ l, f a = g a) : l.flatMap f = l.flatMap g := by
  induction l with
  | nil => rfl
  | cons a rest ih =>
      simp only [List.flatMap_cons]
      rw [h a (List.mem_cons_self a rest), ih fun a ha => h a (List.mem_cons_of_mem _ ha)]

theorem stage_filter_flatMap_perm (sts : List KanbanStage) :
    ∀ ps : List Patient, sts.Nodup → (∀ p ∈ ps, getPatientStage p ∈ sts) →
      (sts.flatMap fun st => ps.filter fun p => decide (getPatientStage p = st)).Perm ps := by
  induction sts with
  | nil =>
      intro ps _ hcov
      cases ps with
      | nil => simp
      | cons q rest => exact absurd (hcov q (List.mem_cons_self q rest)) (by simp)
  | cons st rest ih =>
      intro ps hnd hcov
      have hst : st ∉ rest := (List.nodup_cons.mp hnd).1
      have hnd' : rest.Nodup := (List.nodup_cons.mp hnd).2
      have hsplit : (rest.flatMap fun st' => ps.filter fun p => decide (getPatientStage p = st')) =
          rest.flatMap fun st' =>
            (ps.filter fun p => !(decide (getPatientStage p = st))).filter
              fun p => decide (getPatientStage p = st') := by
        refine flatMap_congr_mem fun st' hst' => ?_
        rw [List.filter_filter]
        refine (List.filter_congr fun p _ => ?_).symm
        by_cases h : getPatientStage p = st'
        · have hne2 : ¬ st' = st := fun hc => hst (hc ▸ hst')
          simp [h, hne2]
        · simp [h]
      have hcov' : ∀ p ∈ ps.filter fun p => !(decide (getPatientStage p = st)),
          getPatientStage p ∈ rest := by
        intro p hp
        rcases List.mem_filter.mp hp with ⟨hmem, hne⟩
        have hne' : getPatientStage p ≠ st := by simpa using hne
        rcases List.mem_cons.mp (hcov p hmem) with h | h
        · exact absurd h hne'
        · exact h
      have e1 : ((st :: rest).flatMap fun st' => ps.filter fun p =>
          decide (getPatientStage p = st')) =
          (ps.filter fun p => decide (getPatientStage p = st)) ++
          (rest.flatMap fun st' => ps.filter fun p => decide (getPatientStage p = st')) := by
        simp
      rw [e1, hsplit]
      exact ((ih _ hnd' hcov').append_left _).trans (List.filter_append_perm _ ps)

/-- C7: `patientsByStage` is a stable partition of the input by
`getPatientStage`: every bucket is the in-order sublist of input patients
of that stage (so within-stage relative order is preserved and all six
keys are defined, possibly empty), the six buckets together are a
permutation (multiset equality) of the input, and buckets of different
stages are disjoint. -/
theorem claim_C7_partition (ps : List Patient) :
    (∀ st, patientsByStage ps st = ps.filter (fun p => decide (getPatientStage p = st))) ∧
    (allStages.flatMap fun st => patientsByStage ps st).Perm ps ∧
    (∀ st st', st ≠ st' → ∀ p, p ∈ patientsByStage ps st → p ∉ patientsByStage ps st') := by
  refine ⟨patientsByStage_eq_filter ps, ?_, ?_⟩
  · have hext : (allStages.flatMap fun st => patientsByStage ps st) =
        allStages.flatMap fun st => ps.filter fun p => decide (getPatientStage p = st) :=
      flatMap_congr_mem fun st _ => patientsByStage_eq_filter ps st
    rw [hext]
    refine stage_filter_flatMap_perm allStages ps (by decide) fun p _ => ?_
    exact getPatientStage_mem_allStages p
  · intro st st' hne p hp hp'
    rw [patientsByStage_eq_filter] at hp hp'
    have h1 : getPatientStage p = st := by simpa using (List.mem_filter.mp hp).2
    have h2 : getPatientStage p = st' := by simpa using (List.mem_filter.mp hp').2
    exact hne (h1 ▸ h2)

theorem claim_C7_partition_witness :
    scenarioPatient ∉ patientsByStage [scenarioPatient, freshPatient] .admission :=
  (claim_C7_partition [scenarioPatient, freshPatient]).2.2 .in_progress .admission
    (by decide) scenarioPatient (by decide)

theorem foldl_add_eq_sum {α : Type} (g : α → Int) (fn : Int → α → Int)
    (h : ∀ acc s, fn acc s = acc + g s) (l : List α) :
    ∀ a : Int, l.foldl fn a = a + (l.map g).sum := by
  induction l with
  | nil => intro a; simp
  | cons s rest ih =>
      intro a
      simp only [List.foldl_cons, List.map_cons, List.sum_cons]
      rw [h a s, ih (a + g s)]
      ring

theorem stats_totalTime_eq (p : Patient) (studies : List Study) (now : Int) :
    (calculatePatientTimeStats p studies now).totalTime =
      ((p.dischargedAt.getD now) - p.admissionTime).fdiv 60000 := rfl

theorem stats_waitingForStudies_eq (p : Patient) (studies : List Study) (now : Int) :
    (calculatePatientTimeStats p studies now).waitingForStudies =
      waitingForStudiesClaim studies now := by
  have h := foldl_add_eq_sum (studyWaitContribution now)
    (fun acc study => acc + ((study.completedAt.getD now) - study.requestedAt).fdiv 60000)
    (fun acc s => rfl) studies 0
  simpa [calculatePatientTimeStats, waitingForStudiesClaim] using h

theorem stats_waitingForReview_eq (p : Patient) (studies : List Study) (now : Int) :
    (calculatePatientTimeStats p studies now).waitingForReview =
      waitingForReviewClaim studies now := by
  have h := foldl_add_eq_sum (reviewContribution now)
    (fun acc study =>
      match study.completedAt, study.reviewedAt with
      | some completedAt, none => acc + (now - completedAt).fdiv 60000
      | some completedAt, some reviewedAt => acc + (reviewedAt - completedAt).fdiv 60000
      | none, _ => acc)
    (fun acc s => by
      rcases hc : s.completedAt with _ | c <;> rcases hr : s.reviewedAt with _ | r <;>
        simp [reviewContribution, hc, hr]) studies 0
  simpa [calculatePatientTimeStats, waitingForReviewClaim] using h

theorem stats_studiesInProgress_eq (p : Patient) (studies : List Study) (now : Int) :
    (calculatePatientTimeStats p studies now).studiesInProgress =
      studiesInProgressClaim studies := by
  have h := foldl_add_eq_sum inProgressContribution
    (fun acc study =>
      match study.inProgressAt, study.completedAt with
      | some inProgressAt, some completedAt => acc + (completedAt - inProgressAt).fdiv 60000
      | _, _ => acc)
    (fun acc s => by
      rcases hi : s.inProgressAt with _ | i <;> rcases hc : s.completedAt with _ | c <;>
        simp [inProgressContribution, hi, hc]) studies 0
  simpa [calculatePatientTimeStats, studiesInProgressClaim] using h

theorem stats_averageStudyTime_eq (p : Patient) (studies : List Study) (now : Int) :
    (calculatePatientTimeStats p studies now).averageStudyTime =
      (if 0 < completedCount studies then
        (waitingForStudiesClaim studies now).fdiv (completedCount studies)
      else 0) := by
  have h := stats_waitingForStudies_eq p studies now
  simp only [calculatePatientTimeStats] at h ⊢
  rw [h]
  rfl

/-- C4: `calculatePatientTimeStats` returns, all in floor-truncated whole
minutes: `totalTime = (dischargedAt or now) − admissionTime`;
`waitingForStudies`, `waitingForReview` and `studiesInProgress` as the
independent per-study sums the spec describes; and `averageStudyTime =
floor(waitingForStudies / count of studies with completedAt set)`, or 0
when that count is 0. -/
theorem claim_C4_stats (p : Patient) (studies : List Study) (now : Int) :
    (calculatePatientTimeStats p studies now).totalTime =
      ((p.dischargedAt.getD now) - p.admissionTime).fdiv 60000 ∧
    (calculatePatientTimeStats p studies now).waitingForStudies =
      waitingForStudiesClaim studies now ∧
    (calculatePatientTimeStats p studies now).waitingForReview =
      waitingForReviewClaim studies now ∧
    (calculatePatientTimeStats p studies now).studiesInProgress =
      studiesInProgressClaim studies ∧
    (calculatePatientTimeStats p studies now).averageStudyTime =
      (if 0 < completedCount studies then
        (waitingForStudiesClaim studies now).fdiv (completedCount studies)
      else 0) :=
  ⟨stats_totalTime_eq p studies now, stats_waitingForStudies_eq p studies now,
    stats_waitingForReview_eq p studies now, stats_studiesInProgress_eq p studies now,
    stats_averageStudyTime_eq p studies now⟩

theorem lastTs_append (prev : Int) (l₁ l₂ : List TimelineEvent) :
    lastTs prev (l₁ ++ l₂) = lastTs (lastTs prev l₁) l₂ := by
  cases h : l₂.getLast? with
  | none =>
      have : l₂ = [] := List.getLast?_eq_none_iff.mp h
      simp [this, lastTs]
  | some e =>
      have h2 : (l₁ ++ l₂).getLast? = some e := by
        simp [List.getLast?_append, h]
      simp [lastTs, h, h2]

theorem chainFrom_nil (prev : Int) : chainFrom prev [] :=
  ⟨List.chain'_nil, by simp⟩

theorem chainFrom_append {prev : Int} {l₁ l₂ : List TimelineEvent}
    (h₁ : chainFrom prev l₁) (h₂ : chainFrom (lastTs prev l₁) l₂) :
    chainFrom prev (l₁ ++ l₂) := by
  constructor
  · rw [List.chain'_append]
    refine ⟨h₁.1, h₂.1, ?_⟩
    intro x hx y hy
    have hts : lastTs prev l₁ = x.timestamp := by simp [lastTs, Option.mem_def.mp hx]
    have := h₂.2 y hy
    rw [hts] at this
    exact this
  · intro e he
    cases l₁ with
    | nil =>
        have : lastTs prev ([] : List TimelineEvent) = prev := rfl
        exact this ▸ h₂.2 e (by simpa using he)
    | cons a l =>
        have he' : a = e := by simpa using he
        exact he' ▸ h₁.2 a (by simp)

theorem optStep_chainFrom (mk : Int → Int → TimelineEvent) (o : Option Int) (prev : Int)
    (hdur : ∀ q t, (mk q t).duration = calculateDuration q t)
    (hts : ∀ q t, (mk q t).timestamp = t) :
    chainFrom prev (optStep mk o prev).1 ∧
      (optStep mk o prev).2 = lastTs prev (optStep mk o prev).1 := by
  cases o with
  | none => exact ⟨chainFrom_nil prev, rfl⟩
  | some t =>
      refine ⟨⟨List.chain'_singleton _, ?_⟩, by simp [optStep, lastTs, hts]⟩
      intro e he
      have he' : mk prev t = e := by simpa [optStep] using he
      rw [← he', hdur, hts]

theorem studySubEvents_chainFrom (s : Study) (prev : Int) :
    chainFrom prev (studySubEvents s prev).1 ∧
      (studySubEvents s prev).2 = lastTs prev (studySubEvents s prev).1 := by
  have h1 := optStep_chainFrom (studyInProgressMk s) s.inProgressAt prev
    (fun q t => rfl) (fun q t => rfl)
  have h2 := optStep_chainFrom (studyCompletedMk s)
    s.completedAt (optStep (studyInProgressMk s) s.inProgressAt prev).2
    (fun q t => rfl) (fun q t => rfl)
  have h3 := optStep_chainFrom (studyReviewedMk s)
    s.reviewedAt (optStep (studyCompletedMk s) s.completedAt
      (optStep (studyInProgressMk s) s.inProgressAt prev).2).2
    (fun q t => rfl) (fun q t => rfl)
  constructor
  · show chainFrom prev (_ ++ _ ++ _)
    refine chainFrom_append (chainFrom_append h1.1 ?_) ?_
    · rw [← h1.2]; exact h2.1
    · rw [lastTs_append, ← h1.2, ← h2.2]; exact h3.1
  · show _ = lastTs prev (_ ++ _ ++ _)
    rw [lastTs_append, lastTs_append, ← h1.2, ← h2.2, ← h3.2]
    rfl

theorem studiesEvents_chainFrom (ss : List Study) :
    ∀ prev : Int,
      chainFrom prev (studiesEvents prev ss).1 ∧
        (studiesEvents prev ss).2 = lastTs prev (studiesEvents prev ss).1 := by
  induction ss with
  | nil => intro prev; exact ⟨chainFrom_nil prev, rfl⟩
  | cons s rest ih =>
      intro prev
      have hh := studySubEvents_chainFrom s prev
      have ht := ih (studySubEvents s prev).2
      constructor
      · show chainFrom prev (_ ++ _)
        refine chainFrom_append hh.1 ?_
        rw [← hh.2]; exact ht.1
      · show _ = lastTs prev (_ ++ _)
        rw [lastTs_append, ← hh.2, ← ht.2]
        rfl

theorem emittedEvents_chain (p : Patient) (studies : List Study) :
    List.Chain' durStep (emittedEvents p studies) := by
  have h1 := optStep_chainFrom (doctorAssignedMk p) p.assignedToDoctorAt p.admissionTime
    (fun q t => rfl) (fun q t => rfl)
  have h2 := optStep_chainFrom (firstStudyMk p studies) p.firstStudyRequestedAt
    (optStep (doctorAssignedMk p) p.assignedToDoctorAt p.admissionTime).2
    (fun q t => rfl) (fun q t => rfl)
  have h3 := studiesEvents_chainFrom (List.insertionSort reqLE studies)
    (optStep (firstStudyMk p studies) p.firstStudyRequestedAt
      (optStep (doctorAssignedMk p) p.assignedToDoctorAt p.admissionTime).2).2
  have h4 := optStep_chainFrom (allCompletedMk p) p.allStudiesCompletedAt
    (studiesEvents (optStep (firstStudyMk p studies) p.firstStudyRequestedAt
      (optStep (doctorAssignedMk p) p.assignedToDoctorAt p.admissionTime).2).2
      (List.insertionSort reqLE studies)).2
    (fun q t => rfl) (fun q t => rfl)
  have h5 := optStep_chainFrom (dischargeMk p) p.dischargedAt
    (optStep (allCompletedMk p) p.allStudiesCompletedAt
      (studiesEvents (optStep (firstStudyMk p studies) p.firstStudyRequestedAt
        (optStep (doctorAssignedMk p) p.assignedToDoctorAt p.admissionTime).2).2
        (List.insertionSort reqLE studies)).2).2
    (fun q t => rfl) (fun q t => rfl)
  have htail : chainFrom p.admissionTime
      ((optStep (doctorAssignedMk p) p.assignedToDoctorAt p.admissionTime).1 ++
       (optStep (firstStudyMk p studies) p.firstStudyRequestedAt
         (optStep (doctorAssignedMk p) p.assignedToDoctorAt p.admissionTime).2).1 ++
       (studiesEvents (optStep (firstStudyMk p studies) p.firstStudyRequestedAt
         (optStep (doctorAssignedMk p) p.assignedToDoctorAt p.admissionTime).2).2
         (List.insertionSort reqLE studies)).1 ++
       (optStep (allCompletedMk p) p.allStudiesCompletedAt
         (studiesEvents (optStep (firstStudyMk p studies) p.firstStudyRequestedAt
           (optStep (doctorAssignedMk p) p.assignedToDoctorAt p.admissionTime).2).2
           (List.insertionSort reqLE studies)).2).1 ++
       (optStep (dischargeMk p) p.dischargedAt
         (optStep (allCompletedMk p) p.allStudiesCompletedAt
           (studiesEvents (optStep (firstStudyMk p studies) p.firstStudyRequestedAt
             (optStep (doctorAssignedMk p) p.assignedToDoctorAt p.admissionTime).2).2
             (List.insertionSort reqLE studies)).2).2).1) := by
    refine chainFrom_append (chainFrom_append (chainFrom_append (chainFrom_append h1.1 ?_) ?_)
      ?_) ?_
    · rw [← h1.2]; exact h2.1
    · rw [lastTs_append, ← h1.2, ← h2.2]; exact h3.1
    · rw [lastTs_append, lastTs_append, ← h1.2, ← h2.2, ← h3.2]; exact h4.1
    · rw [lastTs_append, lastTs_append, lastTs_append, ← h1.2, ← h2.2, ← h3.2, ← h4.2]
      exact h5.1
  show List.Chain' durStep (admissionEvent p :: _)
  rw [List.chain'_cons']
  refine ⟨?_, htail.1⟩
  intro y hy
  have := htail.2 y hy
  simpa [durStep, admissionEvent] using this

theorem optStep_map (mk : Int → Int → TimelineEvent) (ty : EventType) (o : Option Int)
    (prev : Int) (h : ∀ q t, evProj (mk q t) = (ty, t)) :
    ((optStep mk o prev).1).map evProj = optEvent ty o := by
  cases o with
  | none => rfl
  | some t => simp [optStep, optEvent, h]

theorem studySubEvents_map (s : Study) (prev : Int) :
    ((studySubEvents s prev).1).map evProj =
      optEvent .study_in_progress s.inProgressAt ++
      optEvent .study_completed s.completedAt ++
      optEvent .study_reviewed s.reviewedAt := by
  show (((optStep (studyInProgressMk s) s.inProgressAt prev).1 ++ _ ++ _).map evProj) = _
  rw [List.map_append, List.map_append,
    optStep_map (studyInProgressMk s) .study_in_progress _ _ (fun q t => rfl),
    optStep_map (studyCompletedMk s) .study_completed _ _ (fun q t => rfl),
    optStep_map (studyReviewedMk s) .study_reviewed _ _ (fun q t => rfl)]

theorem studiesEvents_map (ss : List Study) :
    ∀ prev : Int,
      ((studiesEvents prev ss).1).map evProj =
        ss.flatMap fun s =>
          optEvent .study_in_progress s.inProgressAt ++
          optEvent .study_completed s.completedAt ++
          optEvent .study_reviewed s.reviewedAt := by
  induction ss with
  | nil => intro prev; rfl
  | cons s rest ih =>
      intro prev
      show ((studySubEvents s prev).1 ++ (studiesEvents (studySubEvents s prev).2 rest).1).map
        evProj = _
      rw [List.map_append, studySubEvents_map, ih, List.flatMap_cons]

theorem emittedEvents_map (p : Patient) (studies : List Study) :
    (emittedEvents p studies).map evProj =
      (EventType.admission, p.admissionTime) ::
        (optEvent .doctor_assigned p.assignedToDoctorAt ++
         optEvent .study_requested p.firstStudyRequestedAt ++
         ((List.insertionSort reqLE studies).flatMap fun s =>
           optEvent .study_in_progress s.inProgressAt ++
           optEvent .study_completed s.completedAt ++
           optEvent .study_reviewed s.reviewedAt) ++
         optEvent .all_completed p.allStudiesCompletedAt ++
         optEvent .discharge p.dischargedAt) := by
  show ((admissionEvent p :: (_ ++ _ ++ _ ++ _ ++ _)).map evProj) = _
  rw [List.map_cons, List.map_append, List.map_append, List.map_append, List.map_append,
    optStep_map (doctorAssignedMk p) .doctor_assigned _ _ (fun q t => rfl),
    optStep_map (firstStudyMk p studies) .study_requested _ _ (fun q t => rfl),
    optStep_map (allCompletedMk p) .all_completed _ _ (fun q t => rfl),
    optStep_map (dischargeMk p) .discharge _ _ (fun q t => rfl),
    studiesEvents_map]
  rfl

/-- C2: `generatePatientTimeline` emits events in fixed template order —
admission always first with duration 0, then doctor assignment, first
study request, per-study in-progress/completed/reviewed sub-events with
studies stably sorted ascending by `requestedAt`, all-studies-completed,
discharge, each emitted iff its timestamp is present — and every emitted
event's duration is `floor((its timestamp − previous emitted event's
timestamp) / 60000)` through one global running cursor, computed against
emission order before the final sort, negative values surfaced as-is with
no clamping. -/
theorem claim_C2_emission_template (p : Patient) (studies : List Study) :
    generatePatientTimeline p studies = List.insertionSort tsLE (emittedEvents p studies) ∧
    (emittedEvents p studies).head? = some (admissionEvent p) ∧
    (admissionEvent p).duration = 0 ∧
    List.Chain' durStep (emittedEvents p studies) ∧
    (∀ a b : Int, calculateDuration a b = (b - a).fdiv 60000) ∧
    (emittedEvents p studies).map evProj =
      (EventType.admission, p.admissionTime) ::
        (optEvent .doctor_assigned p.assignedToDoctorAt ++
         optEvent .study_requested p.firstStudyRequestedAt ++
         ((List.insertionSort reqLE studies).flatMap fun s =>
           optEvent .study_in_progress s.inProgressAt ++
           optEvent .study_completed s.completedAt ++
           optEvent .study_reviewed s.reviewedAt) ++
         optEvent .all_completed p.allStudiesCompletedAt ++
         optEvent .discharge p.dischargedAt) :=
  ⟨rfl, rfl, rfl, emittedEvents_chain p studies, fun _ _ => rfl, emittedEvents_map p studies⟩

/-- C3: for every patient and study list, the sequence returned by
`generatePatientTimeline` is non-decreasing in timestamp. -/
theorem claim_C3_timeline_sorted (p : Patient) (studies : List Study) :
    List.Pairwise tsLE (generatePatientTimeline p studies) ∧
    List.Chain' (fun a b => a.timestamp ≤ b.timestamp) (generatePatientTimeline p studies) := by
  have h : List.Pairwise tsLE (generatePatientTimeline p studies) :=
    List.sorted_insertionSort tsLE (emittedEvents p studies)
  exact ⟨h, (h.imp fun hab => hab).chain'⟩

theorem optEvent_mem {ty ty' : EventType} {t : Int} {o : Option Int}
    (h : (ty', t) ∈ optEvent ty o) : o = some t := by
  cases o with
  | none => cases h
  | some u =>
      have : ty' = ty ∧ t = u := by simpa [optEvent] using h
      rw [this.2]

theorem emitted_timestamp_mem (p : Patient) (studies : List Study) :
    ∀ e ∈ emittedEvents p studies,
      e.timestamp = p.admissionTime ∨ e.timestamp ∈ eventTimes p studies := by
  intro e he
  have hproj : evProj e ∈ (emittedEvents p studies).map evProj :=
    List.mem_map_of_mem evProj he
  rw [emittedEvents_map] at hproj
  rcases List.mem_cons.mp hproj with h | h
  · left
    have : e.type = EventType.admission ∧ e.timestamp = p.admissionTime := by
      simpa [evProj, Prod.ext_iff] using h
    exact this.2
  · right
    rw [eventTimes, List.reduceOption_mem_iff]
    have hsplit := List.mem_append.mp h
    rcases hsplit with h1 | hdisch
    · rcases List.mem_append.mp h1 with h2 | hall
      · rcases List.mem_append.mp h2 with h3 | hstudy
        · rcases List.mem_append.mp h3 with h4 | h5
          · have := optEvent_mem (show (e.type, e.timestamp) ∈
              optEvent .doctor_assigned p.assignedToDoctorAt from h4)
            simp [this]
          · have := optEvent_mem (show (e.type, e.timestamp) ∈
              optEvent .study_requested p.firstStudyRequestedAt from h5)
            simp [this]
        · rcases List.mem_flatMap.mp hstudy with ⟨s, hsmem, hin⟩
          have hsmem' : s ∈ studies := (List.mem_insertionSort reqLE).mp hsmem
          have hopt : some e.timestamp ∈ [s.inProgressAt, s.completedAt, s.reviewedAt] := by
            rcases List.mem_append.mp hin with h6 | h7
            · rcases List.mem_append.mp h6 with h8 | h9
              · have := optEvent_mem (show (e.type, e.timestamp) ∈
                  optEvent .study_in_progress s.inProgressAt from h8)
                simp [this]
              · have := optEvent_mem (show (e.type, e.timestamp) ∈
                  optEvent .study_completed s.completedAt from h9)
                simp [this]
            · have := optEvent_mem (show (e.type, e.timestamp) ∈
                optEvent .study_reviewed s.reviewedAt from h7)
              simp [this]
          refine List.mem_append.mpr (Or.inr ?_)
          exact List.mem_flatMap.mpr ⟨s, hsmem', hopt⟩
      · have := optEvent_mem (show (e.type, e.timestamp) ∈
          optEvent .all_completed p.allStudiesCompletedAt from hall)
        simp [this]
    · have := optEvent_mem (show (e.type, e.timestamp) ∈
        optEvent .discharge p.dischargedAt from hdisch)
      simp [this]

theorem insertionSort_head_of_min (e0 : TimelineEvent) (l : List TimelineEvent)
    (h : ∀ x ∈ l, tsLE e0 x) :
    (List.insertionSort tsLE (e0 :: l)).head? = some e0 := by
  have hdef : List.insertionSort tsLE (e0 :: l) =
      (List.insertionSort tsLE l).orderedInsert tsLE e0 := rfl
  cases hs : List.insertionSort tsLE l with
  | nil => rw [hdef, hs]; rfl
  | cons y ys =>
      have hy : y ∈ l := (List.mem_insertionSort tsLE).mp (hs ▸ List.mem_cons_self y ys)
      rw [hdef, hs, List.orderedInsert, if_pos (h y hy)]
      rfl

/-- C8 (amended): the emitted (pre-sort) sequence always begins with the
admission event, whose duration is 0; and whenever every other event
timestamp is at least `admissionTime` (in particular for lifecycle-ordered
input), the sequence returned by `generatePatientTimeline` also has the
admission event first. (As stated over the returned, re-sorted sequence,
the claim fails for out-of-order input; see the counterexample.) -/
theorem claim_C8_admission_anchor (p : Patient) (studies : List Study) :
    (emittedEvents p studies).head? = some (admissionEvent p) ∧
    (admissionEvent p).duration = 0 ∧
    ((∀ t ∈ eventTimes p studies, p.admissionTime ≤ t) →
      (generatePatientTimeline p studies).head? = some (admissionEvent p)) := by
  refine ⟨rfl, rfl, ?_⟩
  intro hmono
  cases hE : emittedEvents p studies with
  | nil =>
      have : (emittedEvents p studies).head? = some (admissionEvent p) := rfl
      rw [hE] at this
      cases this
  | cons a rest =>
      have ha : a = admissionEvent p := by
        have : (emittedEvents p studies).head? = some (admissionEvent p) := rfl
        rw [hE] at this
        simpa using this
      subst ha
      have hmin : ∀ x ∈ rest, tsLE (admissionEvent p) x := by
        intro x hx
        have hxmem : x ∈ emittedEvents p studies := by
          rw [hE]; exact List.mem_cons_of_mem _ hx
        rcases emitted_timestamp_mem p studies x hxmem with h | h
        · exact le_of_eq (by simpa [tsLE, admissionEvent] using h.symm)
        · simpa [tsLE, admissionEvent] using hmono x.timestamp h
      have : generatePatientTimeline p studies =
          List.insertionSort tsLE (admissionEvent p :: rest) := by
        rw [generatePatientTimeline, hE]
      rw [this]
      exact insertionSort_head_of_min (admissionEvent p) rest hmin

theorem claim_C8_admission_anchor_witness :
    (generatePatientTimeline freshPatient []).head? = some (admissionEvent freshPatient) :=
  (claim_C8_admission_anchor freshPatient []).2.2 (by decide)

theorem claim_C8_counterexample :
    ((generatePatientTimeline earlyDoctorPatient []).head?).map TimelineEvent.type ≠
      some EventType.admission := by decide

theorem presentMono_le (l₁ l₂ l₃ : List (Option Int)) (a b : Int)
    (h : presentMono (l₁ ++ (some a :: (l₂ ++ (some b :: l₃))))) : a ≤ b := by
  unfold presentMono at h
  have hred : (l₁ ++ (some a :: (l₂ ++ (some b :: l₃)))).reduceOption =
      l₁.reduceOption ++ (a :: (l₂.reduceOption ++ (b :: l₃.reduceOption))) := by
    rw [List.reduceOption_append, List.reduceOption_cons_of_some, List.reduceOption_append,
      List.reduceOption_cons_of_some]
  rw [hred] at h
  have s1 : List.Sublist [b] (b :: l₃.reduceOption) := (List.nil_sublist _).cons₂ b
  have s2 : List.Sublist [b] (l₂.reduceOption ++ (b :: l₃.reduceOption)) :=
    s1.trans (List.sublist_append_right _ _)
  have s3 : List.Sublist [a, b] (a :: (l₂.reduceOption ++ (b :: l₃.reduceOption))) := s2.cons₂ a
  have s4 : List.Sublist [a, b]
      (l₁.reduceOption ++ (a :: (l₂.reduceOption ++ (b :: l₃.reduceOption)))) :=
    s3.trans (List.sublist_append_right _ _)
  have hp : List.Pairwise (· ≤ ·) [a, b] := h.sublist s4
  exact List.rel_of_pairwise_cons hp (List.mem_singleton_self b)

theorem mem_allLifecycleTimes_admission (p : Patient) (studies : List Study) :
    p.admissionTime ∈ allLifecycleTimes p studies := by
  rw [allLifecycleTimes, List.reduceOption_mem_iff]
  exact List.mem_append_left _ (by simp [patientLifecycle])

theorem mem_allLifecycleTimes_study (p : Patient) (studies : List Study) (s : Study)
    (hs : s ∈ studies) (o : Option Int) (t : Int)
    (ho : o ∈ [some s.requestedAt, s.inProgressAt, s.completedAt, s.reviewedAt])
    (ht : o = some t) :
    t ∈ allLifecycleTimes p studies := by
  rw [allLifecycleTimes, List.reduceOption_mem_iff]
  refine List.mem_append_right _ (List.mem_flatMap.mpr ⟨s, hs, ?_⟩)
  rw [← ht]
  exact ho

/-- C9: if all present timestamps of a patient and its studies are
monotonic along the lifecycle and `now` is at least every such timestamp,
then `calculatePatientTimeStats` returns non-negative `totalTime`,
`waitingForStudies`, `waitingForReview` and `studiesInProgress`. -/
theorem claim_C9_stats_nonneg (p : Patient) (studies : List Study) (now : Int)
    (hmono : MonotonicLifecycle p studies)
    (hnow : ∀ t ∈ allLifecycleTimes p studies, t ≤ now) :
    0 ≤ (calculatePatientTimeStats p studies now).totalTime ∧
    0 ≤ (calculatePatientTimeStats p studies now).waitingForStudies ∧
    0 ≤ (calculatePatientTimeStats p studies now).waitingForReview ∧
    0 ≤ (calculatePatientTimeStats p studies now).studiesInProgress := by
  have h60 : (0 : Int) ≤ 60000 := by norm_num
  refine ⟨?_, ?_, ?_, ?_⟩
  · rw [stats_totalTime_eq]
    refine Int.fdiv_nonneg (sub_nonneg.mpr ?_) h60
    rcases hd : p.dischargedAt with _ | d
    · simpa using hnow p.admissionTime (mem_allLifecycleTimes_admission p studies)
    · have h' : presentMono ([] ++ (some p.admissionTime ::
          ([p.assignedToDoctorAt, p.firstStudyRequestedAt, p.allStudiesCompletedAt] ++
            (some d :: [])))) := by
        have := hmono.1
        simpa [patientLifecycle, hd] using this
      simpa [hd] using presentMono_le [] _ [] p.admissionTime d h'
  · rw [stats_waitingForStudies_eq, waitingForStudiesClaim]
    refine List.sum_nonneg ?_
    intro x hx
    rcases List.mem_map.mp hx with ⟨s, hs, hval⟩
    rw [← hval, studyWaitContribution]
    refine Int.fdiv_nonneg (sub_nonneg.mpr ?_) h60
    rcases hc : s.completedAt with _ | c
    · simpa using hnow s.requestedAt
        (mem_allLifecycleTimes_study p studies s hs (some s.requestedAt) s.requestedAt
          (by simp) rfl)
    · have h' : presentMono ([some p.admissionTime, p.assignedToDoctorAt,
          p.firstStudyRequestedAt] ++ (some s.requestedAt :: ([s.inProgressAt] ++
            (some c :: [s.reviewedAt, p.allStudiesCompletedAt, p.dischargedAt])))) := by
        have := hmono.2 s hs
        simpa [studyLifecycle, hc] using this
      simpa [hc] using presentMono_le _ _ _ s.requestedAt c h'
  · rw [stats_waitingForReview_eq, waitingForReviewClaim]
    refine List.sum_nonneg ?_
    intro x hx
    rcases List.mem_map.mp hx with ⟨s, hs, hval⟩
    rw [← hval]
    rcases hc : s.completedAt with _ | c <;> rcases hr : s.reviewedAt with _ | r <;>
      simp only [reviewContribution, hc, hr]
    · exact le_refl 0
    · exact le_refl 0
    · refine Int.fdiv_nonneg (sub_nonneg.mpr ?_) h60
      exact hnow c (mem_allLifecycleTimes_study p studies s hs s.completedAt c (by simp) hc)
    · refine Int.fdiv_nonneg (sub_nonneg.mpr ?_) h60
      have h' : presentMono ([some p.admissionTime, p.assignedToDoctorAt,
          p.firstStudyRequestedAt, some s.requestedAt, s.inProgressAt] ++ (some c ::
            ([] ++ (some r :: [p.allStudiesCompletedAt, p.dischargedAt])))) := by
        have := hmono.2 s hs
        simpa [studyLifecycle, hc, hr] using this
      exact presentMono_le _ _ _ c r h'
  · rw [stats_studiesInProgress_eq, studiesInProgressClaim]
    refine List.sum_nonneg ?_
    intro x hx
    rcases List.mem_map.mp hx with ⟨s, hs, hval⟩
    rw [← hval]
    rcases hi : s.inProgressAt with _ | i <;> rcases hc : s.completedAt with _ | c <;>
      simp only [inProgressContribution, hi, hc]
    · exact le_refl 0
    · exact le_refl 0
    · exact le_refl 0
    · refine Int.fdiv_nonneg (sub_nonneg.mpr ?_) h60
      have h' : presentMono ([some p.admissionTime, p.assignedToDoctorAt,
          p.firstStudyRequestedAt, some s.requestedAt] ++ (some i ::
            ([] ++ (some c :: [s.reviewedAt, p.allStudiesCompletedAt, p.dischargedAt])))) := by
        have := hmono.2 s hs
        simpa [studyLifecycle, hi, hc] using this
      exact presentMono_le _ _ _ i c h'

theorem claim_C9_stats_nonneg_witness :
    0 ≤ (calculatePatientTimeStats monotonicPatient [monotonicStudy] 6000000).totalTime ∧
    0 ≤ (calculatePatientTimeStats monotonicPatient [monotonicStudy] 6000000).waitingForStudies ∧
    0 ≤ (calculatePatientTimeStats monotonicPatient [monotonicStudy] 6000000).waitingForReview ∧
    0 ≤ (calculatePatientTimeStats monotonicPatient [monotonicStudy] 6000000).studiesInProgress :=
  claim_C9_stats_nonneg monotonicPatient [monotonicStudy] 6000000 (by decide) (by decide)

theorem claim_C5_scenario_counterexample :
    (generatePatientTimeline scenarioPatient [scenarioStudy]).map TimelineEvent.type ≠
      [.admission, .doctor_assigned, .study_requested, .study_in_progress, .study_completed,
       .study_reviewed, .all_completed] := by decide

/-- C5 (amended): on the §8 scenario patient, `getPatientStage` returns
`in_progress` and `calculatePatientTimeStats` at 11:00 returns
`waitingForStudies = 20`, `studiesInProgress = 15`, `waitingForReview = 5`,
`averageStudyTime = 20`, as claimed; but the seven timeline events come
back in non-decreasing (not strict) timestamp order with `all_completed`
(10:40) before `study_reviewed` (10:45): admission, doctor_assigned,
study_requested, study_in_progress, study_completed (with the
abnormal-result description), all_completed, study_reviewed. -/
theorem claim_C5_scenario :
    getPatientStage scenarioPatient = .in_progress ∧
    (generatePatientTimeline scenarioPatient [scenarioStudy]).map evProj =
      [(.admission, t1000), (.doctor_assigned, t1010), (.study_requested, t1020),
       (.study_in_progress, t1025), (.study_completed, t1040), (.all_completed, t1040),
       (.study_reviewed, t1045)] ∧
    (generatePatientTimeline scenarioPatient [scenarioStudy]).map TimelineEvent.description =
      ["Paciente ingresado con diagnóstico: Dolor torácico",
       "Paciente asignado a médico tratante",
       "1 estudio(s) solicitado(s)",
       "Estudio Laboratorio en proceso",
       "⚠️ Resultado anormal detectado",
       "Paciente listo para evaluación final",
       "Resultado revisado por médico"] ∧
    List.Pairwise tsLE (generatePatientTimeline scenarioPatient [scenarioStudy]) ∧
    (calculatePatientTimeStats scenarioPatient [scenarioStudy] t1100).waitingForStudies = 20 ∧
    (calculatePatientTimeStats scenarioPatient [scenarioStudy] t1100).studiesInProgress = 15 ∧
    (calculatePatientTimeStats scenarioPatient [scenarioStudy] t1100).waitingForReview = 5 ∧
    (calculatePatientTimeStats scenarioPatient [scenarioStudy] t1100).averageStudyTime = 20 := by
  decide
